import Mathlib

/-!
Verification of the blackjack engine in `src/run.py`.

Shallow embedding conventions:
* A card is a `Nat` (the Python code uses integers 0..51; rank = card % 13).
* Python `float` chip amounts (stack, bet) are modelled as `ℚ`.
* Python's `list.pop()` removes the last element of the list; we store shoes
  with the next card to be drawn at the HEAD of the Lean list, so `pop`
  becomes pattern matching on `c :: rest`.
* Methods that can raise are modelled as returning `Table × Option String`:
  the resulting state together with `some message` when the Python code
  raises (`ValueError` / `IndexError`) and `none` on normal return.  When an
  exception is raised before any assignment happens, the returned state is
  the unchanged input state, which is exactly Python's behaviour.
* `random.randint(a, b)` returns an integer `r` with `a ≤ r ≤ b` (both ends
  inclusive, per the Python documentation); its set of possible results is
  modelled by the predicate `randintPossible`.
-/

namespace Blackjack

/-- Result of `evaluate_hand`: the Python dict `{'value': …, 'blackjack': …}`. -/
structure HandEval where
  value : Nat
  blackjack : Bool
deriving Repr, DecidableEq

/-- One iteration of the card loop in `evaluate_hand` (src/run.py lines
377-387): accumulates `(hand_value, ace_count)`. -/
def evalStep (acc : Nat × Nat) (card : Nat) : Nat × Nat :=
  if card % 13 ≤ 7 then (acc.1 + (card % 13 + 2), acc.2)
  else if 8 ≤ card % 13 ∧ card % 13 ≤ 11 then (acc.1 + 10, acc.2)
  else if card % 13 = 12 then (acc.1 + 11, acc.2 + 1)
  else acc

/-- The ace-adjustment loop in `evaluate_hand` (src/run.py lines 390-392):
`for _ in range(ace_count): if hand_value > 21: hand_value -= 10`. -/
def aceAdjust : Nat → Nat → Nat
  | 0, hv => hv
  | n + 1, hv => aceAdjust n (if hv > 21 then hv - 10 else hv)

/-- `evaluate_hand` (src/run.py lines 370-398). -/
def evaluate_hand (cards : List Nat) : HandEval :=
  let acc := cards.foldl evalStep (0, 0)
  let v := aceAdjust acc.2 acc.1
  if cards.length = 2 ∧ v = 21 then ⟨21, true⟩ else ⟨v, false⟩

/-- `Deck.card_ranks` (src/run.py lines 294-296). -/
def card_ranks : List String :=
  ["2", "3", "4", "5", "6", "7", "8", "9", "10", "J", "Q", "K", "A"]

/-- `Deck.get_rank` (src/run.py lines 308-310). -/
def get_rank (x : Nat) : String :=
  card_ranks.getD (x % 13) ""

/-- `Shoe` state: deck count, remaining cards (next card to draw at the
head, see module docstring), and the cut point (src/run.py lines 344-356). -/
structure Shoe where
  num_decks : Nat
  cards : List Nat
  reshuffle_point : Nat
deriving Repr, DecidableEq

/-- The set of possible results of Python's `random.randint(a, b)`:
every integer `r` with `a ≤ r ≤ b`, both endpoints included. -/
def randintPossible (a b r : Nat) : Prop := a ≤ r ∧ r ≤ b

instance (a b r : Nat) : Decidable (randintPossible a b r) :=
  inferInstanceAs (Decidable (_ ∧ _))

/-- `Shoe.__init__(num_decks)` (src/run.py lines 350-356, with the
`num_decks` setter of lines 362-367): `sh` is a possible freshly
constructed shoe for `n` decks iff the deck count passed validation
(`0 < n < 7`), the cards are a concatenation of `n` independently shuffled
52-card decks, and the cut point is a possible result of
`random.randint(30, 52 * n)`. -/
def Shoe.possibleInit (n : Nat) (sh : Shoe) : Prop :=
  0 < n ∧ n < 7 ∧ sh.num_decks = n ∧
  (∃ decks : List (List Nat), decks.length = n ∧
      (∀ d ∈ decks, d.Perm (List.range 52)) ∧ sh.cards = decks.flatten) ∧
  randintPossible 30 (52 * n) sh.reshuffle_point

/-- `Table` state (src/run.py lines 20-27).  `player_input_ended` is first
assigned in `play_hand`; `split_cards` is referenced by `action_permitted`
but never assigned anywhere in the program.  We carry it here as a list
field (empty = absent) so that the boolean model `action_permitted` is a
total function of the state; the faithful attribute semantics — reading
the never-assigned attribute raises `AttributeError` — is modelled
separately by `action_permitted_attr`, whose `Option` argument
distinguishes an absent attribute from a present one. -/
structure Table where
  player_stack : ℚ
  shoe : Shoe
  reshuffle : Bool
  dealer_cards : List Nat
  player_cards : List Nat
  bet : ℚ
  bet_placed : Bool
  player_input_ended : Bool
  split_cards : List Nat
deriving Repr, DecidableEq

/-- The `player_stack` property setter (src/run.py lines 261-266): raises
`ValueError` (leaving the stack unassigned) unless `0 ≤ v ≤ 999999`. -/
def set_player_stack (t : Table) (v : ℚ) : Table × Option String :=
  if v < 0 ∨ v > 999999 then
    (t, some "Player stack must be between 0 and 999999")
  else ({ t with player_stack := v }, none)

/-- The `bet` property setter (src/run.py lines 272-286).  The raw input is
the result of Python's `float(v)`: `none` when parsing raised `ValueError`
(non-numeric input), `some b` for the parsed value. -/
def set_bet (t : Table) (v : Option ℚ) : Table × Option String :=
  match v with
  | none => (t, some "Bet must be a number")
  | some b =>
    if b ≤ 0 then (t, some "Bet must be greater than 0")
    else if b > t.player_stack then
      if t.bet_placed = true ∧ b - t.bet ≤ t.player_stack then
        ({ t with bet := b }, none)
      else (t, some "Bet must not be larger than remaining chips")
    else ({ t with bet := b }, none)

/-- The four actions named by `Table.action_permitted`. -/
inductive Action
  | hit
  | stand
  | double
  | split
deriving Repr, DecidableEq

/-- `Table.action_permitted` (src/run.py lines 151-176) as a boolean
function of the state, reading the never-assigned `split_cards` as the
empty list.  Only the split branch reads `split_cards` at all (Python's
short-circuit `and` chains evaluate `action == ...` first), so the
blackjack, hit, stand and double branches are exact; the split branch's
real attribute-access behaviour is captured by `action_permitted_attr`
below. -/
def action_permitted (t : Table) (a : Action) : Bool :=
  if (evaluate_hand t.player_cards).blackjack then false
  else
    match a with
    | .hit => true
    | .stand => true
    | .double =>
        decide (t.player_cards.length = 2 ∧ t.bet ≤ t.player_stack)
    | .split =>
        decide (t.split_cards = [] ∧ t.player_cards.length = 2 ∧
          get_rank (t.player_cards.getD 0 0) = get_rank (t.player_cards.getD 1 0) ∧
          t.bet ≤ t.player_stack)

/-- `Table.action_permitted` (src/run.py lines 151-176) with Python's
attribute semantics made explicit.  The object's `split_cards` attribute
is passed separately: `none` means the attribute was never assigned —
which is the case in every state of run.py, since no statement anywhere
in the program assigns `split_cards` — and reading it then raises
`AttributeError`.  The truthiness test `not self.split_cards` at line 170
is the first conjunct after `action == 'split'`, so on a non-blackjack
hand the split query reads the attribute before any other split
condition; the blackjack, hit, stand and double branches never reach
line 170 and return booleans as before. -/
def action_permitted_attr (t : Table) (split_attr : Option (List Nat))
    (a : Action) : Except String Bool :=
  if (evaluate_hand t.player_cards).blackjack then .ok false
  else
    match a with
    | .hit => .ok true
    | .stand => .ok true
    | .double =>
        .ok (decide (t.player_cards.length = 2 ∧ t.bet ≤ t.player_stack))
    | .split =>
      match split_attr with
      | none => .error "AttributeError: Table object has no attribute split_cards"
      | some l =>
          .ok (decide (l = [] ∧ t.player_cards.length = 2 ∧
            get_rank (t.player_cards.getD 0 0) = get_rank (t.player_cards.getD 1 0) ∧
            t.bet ≤ t.player_stack))

/-- `Table.process_action` (src/run.py lines 178-194).  `'h'` and `'s'` are
applied unconditionally; `'d'` is guarded by `action_permitted('double')`
and performs `bet += bet` through the bet setter, then
`player_stack -= bet_increment` through the stack setter, then draws one
card; any other key (including `'2'`, the documented split key) falls off
the end of the if/elif chain and returns `None` without touching state.
Popping an empty shoe is Python's `IndexError`. -/
def process_action (t : Table) (key : String) : Table × Option String :=
  if key = "h" then
    match t.shoe.cards with
    | [] => (t, some "IndexError: pop from empty list")
    | c :: rest =>
        ({ t with player_cards := t.player_cards ++ [c],
                  shoe := { t.shoe with cards := rest } }, none)
  else if key = "s" then
    ({ t with player_input_ended := true }, none)
  else if key = "d" ∧ action_permitted t .double = true then
    let incremental_bet := t.bet
    match set_bet t (some (t.bet + incremental_bet)) with
    | (t1, some e) => (t1, some e)
    | (t1, none) =>
      match set_player_stack t1 (t1.player_stack - incremental_bet) with
      | (t2, some e) => (t2, some e)
      | (t2, none) =>
        match t2.shoe.cards with
        | [] => (t2, some "IndexError: pop from empty list")
        | c :: rest =>
            ({ t2 with player_cards := t2.player_cards ++ [c],
                       shoe := { t2.shoe with cards := rest },
                       player_input_ended := true }, none)
  else (t, none)

/-- `Table.process_result` (src/run.py lines 94-139), with the purely
presentational `print`/`input` calls dropped: determines the payout and
credits the stack through the stack setter; when the dealer wins no setter
call is made and the state is returned unchanged. -/
def process_result (t : Table) : Table × Option String :=
  let pe := evaluate_hand t.player_cards
  let de := evaluate_hand t.dealer_cards
  if pe.blackjack = true ∧ de.blackjack = false then
    set_player_stack t (t.player_stack + t.bet * (5 / 2 : ℚ))
  else if pe.value ≤ 21 then
    if de.value < pe.value ∨ 21 < de.value then
      set_player_stack t (t.player_stack + t.bet * 2)
    else if (de.blackjack = false ∧ pe.value = de.value) ∨
        (pe.blackjack = true ∧ de.blackjack = true) then
      set_player_stack t (t.player_stack + t.bet)
    else (t, none)
  else (t, none)

/-- The dealer draw loop of `Table.reveal_dealer_cards` (src/run.py lines
147-149): `while evaluate_hand(dealer)['value'] < 17: dealer += [pop()]`.
Popping an empty shoe is Python's `IndexError`. -/
def drawToSeventeen (dealer shoe : List Nat) : (List Nat × List Nat) × Option String :=
  if (evaluate_hand dealer).value < 17 then
    match shoe with
    | [] => ((dealer, shoe), some "IndexError: pop from empty list")
    | c :: rest => drawToSeventeen (dealer ++ [c]) rest
  else ((dealer, shoe), none)
termination_by shoe.length

/-- `Table.reveal_dealer_cards` (src/run.py lines 141-149). -/
def reveal_dealer_cards (t : Table) : Table × Option String :=
  match t.shoe.cards with
  | [] => (t, some "IndexError: pop from empty list")
  | c :: rest =>
    let d := t.dealer_cards ++ [c]
    if (evaluate_hand d).blackjack = true ∨
        (evaluate_hand t.player_cards).blackjack = true then
      ({ t with dealer_cards := d, shoe := { t.shoe with cards := rest } }, none)
    else
      match drawToSeventeen d rest with
      | ((d2, s2), e) =>
          ({ t with dealer_cards := d2, shoe := { t.shoe with cards := s2 } }, e)

/-! ### Claim-side definitions (transcribed from the specification text,
for comparison with the code-side definitions above) -/

/-- Spec wording for a single card's provisional contribution: ranks 2-10
contribute face value, J/Q/K contribute 10, an Ace contributes 11. -/
def claimCardValue (card : Nat) : Nat :=
  if card % 13 = 12 then 11
  else if 8 ≤ card % 13 then 10
  else card % 13 + 2

/-- Spec wording: the number of aces counted while summing. -/
def claimAceCount (cards : List Nat) : Nat :=
  cards.countP (fun c => c % 13 = 12)

/-! ### Helper lemmas -/

theorem evalStep_eq (a b c : Nat) :
    evalStep (a, b) c =
      (a + claimCardValue c, b + if c % 13 = 12 then 1 else 0) := by
  have hc : c % 13 < 13 := Nat.mod_lt c (by norm_num)
  unfold evalStep claimCardValue
  split_ifs <;> simp <;> omega

theorem foldl_evalStep (cards : List Nat) : ∀ a b : Nat,
    cards.foldl evalStep (a, b) =
      (a + (cards.map claimCardValue).sum, b + claimAceCount cards) := by
  induction cards with
  | nil => intro a b; simp [claimAceCount]
  | cons c cs ih =>
    intro a b
    rw [List.foldl_cons, evalStep_eq, ih]
    simp [claimAceCount, List.countP_cons]
    constructor
    · omega
    · split_ifs <;> omega

theorem evaluate_hand_value (cards : List Nat) :
    (evaluate_hand cards).value =
      aceAdjust (claimAceCount cards) ((cards.map claimCardValue).sum) := by
  unfold evaluate_hand
  rw [foldl_evalStep]
  simp only [Nat.zero_add]
  split_ifs with h
  · exact h.2.symm
  · rfl

theorem evaluate_hand_blackjack (cards : List Nat) :
    (evaluate_hand cards).blackjack = true ↔
      cards.length = 2 ∧ (evaluate_hand cards).value = 21 := by
  unfold evaluate_hand
  dsimp only
  split_ifs with h
  · simpa using h.1
  · simpa using h

/-- C1: `evaluate_hand` returns the provisional sum (face value for 2-10,
10 for J/Q/K, 11 per Ace) adjusted once per counted Ace — each iteration
subtracting 10 exactly when the running total at that iteration exceeds
21 — and its blackjack flag is true iff exactly two cards were evaluated
and the resulting value is exactly 21; in particular a 21 made of three
or more cards is not blackjack and two aces evaluate to value 12 without
blackjack. -/
theorem C1_evaluate_hand_spec :
    (∀ cards : List Nat,
      (evaluate_hand cards).value =
        aceAdjust (claimAceCount cards) ((cards.map claimCardValue).sum))
    ∧ (∀ cards : List Nat,
      (evaluate_hand cards).blackjack = true ↔
        cards.length = 2 ∧ (evaluate_hand cards).value = 21)
    ∧ evaluate_hand [12, 25] = ⟨12, false⟩
    ∧ evaluate_hand [12, 25, 7] = ⟨21, false⟩ :=
  ⟨evaluate_hand_value, evaluate_hand_blackjack, by decide, by decide⟩

/-! ### Concrete states used by witnesses and counterexamples -/

/-- A mid-hand state: initial stack 100, bet 10 placed (stack 90), player
holds 2♣ and 3♣ (value 5), dealer shows 4♣, next shoe cards 7♣, 8♣, 9♣. -/
def exTable : Table :=
  { player_stack := 90, shoe := ⟨6, [5, 6, 7], 100⟩, reshuffle := false,
    dealer_cards := [2], player_cards := [0, 1], bet := 10,
    bet_placed := true, player_input_ended := false, split_cards := [] }

/-- Like `exTable` but the player holds A♣ K♣ — a blackjack. -/
def bjTable : Table :=
  { exTable with player_cards := [12, 10], shoe := ⟨6, [5], 100⟩ }

/-! ### C3: action_permitted (code bug in the split branch) -/

/-- C3 (code bug): no statement in run.py ever assigns `split_cards`, so
the attribute is absent in every state; querying split on a non-blackjack
hand therefore raises `AttributeError` at the truthiness test of line 170
instead of returning the claimed boolean — shown here at the concrete
state `exTable` — while a blackjack hand still yields `False` before the
attribute is read, and the hit, stand and double branches never read the
attribute and agree exactly with the boolean model `action_permitted`. -/
theorem C3_action_permitted_split_bug :
    action_permitted_attr exTable none .split =
      Except.error "AttributeError: Table object has no attribute split_cards"
    ∧ action_permitted_attr bjTable none .split = Except.ok false
    ∧ (∀ t : Table,
        action_permitted_attr t none .hit = Except.ok (action_permitted t .hit)
        ∧ action_permitted_attr t none .stand = Except.ok (action_permitted t .stand)
        ∧ action_permitted_attr t none .double = Except.ok (action_permitted t .double)) := by
  refine ⟨rfl, rfl, fun t => ?_⟩
  unfold action_permitted_attr action_permitted
  split_ifs with h <;> exact ⟨rfl, rfl, rfl⟩

/-! ### C8: the shoe's reshuffle point -/

/-- A possible freshly constructed 6-deck shoe in which `random.randint`
returned its inclusive upper endpoint 312. -/
def idShoe : Shoe :=
  ⟨6, (List.replicate 6 (List.range 52)).flatten, 312⟩

theorem idShoe_possible : Shoe.possibleInit 6 idShoe := by
  refine ⟨by norm_num, by norm_num, rfl,
    ⟨List.replicate 6 (List.range 52), by simp, ?_, rfl⟩,
    by norm_num [idShoe], by norm_num [idShoe]⟩
  intro d hd
  rw [List.eq_of_mem_replicate hd]

/-- C8 counterexample: the claim says `reshuffle_point` is strictly below
`52 × num_decks` for every draw of the randomness source, but Python's
`random.randint(30, 52*6)` is inclusive at both ends, so a fresh 6-deck
shoe can have `reshuffle_point = 312`, which is not `< 312`. -/
theorem C8_counterexample :
    Shoe.possibleInit 6 idShoe ∧ ¬(idShoe.reshuffle_point < 52 * 6) :=
  ⟨idShoe_possible, by norm_num [idShoe]⟩

/-- C8 amended: for every `num_decks` in [1,6], a freshly constructed
shoe's `reshuffle_point` lies in the closed interval `[30, 52×num_decks]`
(at least 30 and at most — inclusively — `52×num_decks`), and the fresh
shoe holds exactly `52×num_decks` cards. -/
theorem C8_reshuffle_point_amended (n : Nat) (sh : Shoe)
    (h : Shoe.possibleInit n sh) :
    30 ≤ sh.reshuffle_point ∧ sh.reshuffle_point ≤ 52 * n
    ∧ sh.cards.length = 52 * n := by
  obtain ⟨-, -, -, ⟨decks, hlen, hperm, hcards⟩, h30, hub⟩ := h
  refine ⟨h30, hub, ?_⟩
  rw [hcards, List.length_flatten]
  have hmap : decks.map List.length = List.replicate n 52 := by
    rw [List.eq_replicate_iff]
    refine ⟨by simpa using hlen, ?_⟩
    intro b hb
    obtain ⟨d, hd, rfl⟩ := List.mem_map.mp hb
    simpa using (hperm d hd).length_eq
  rw [hmap, List.sum_replicate, smul_eq_mul, Nat.mul_comm]

/-- Witness for C8 at the concrete shoe `idShoe`. -/
theorem C8_witness :
    30 ≤ idShoe.reshuffle_point ∧ idShoe.reshuffle_point ≤ 52 * 6
    ∧ idShoe.cards.length = 52 * 6 :=
  C8_reshuffle_point_amended 6 idShoe idShoe_possible

/-! ### C5: the bet setter -/

/-- C5: `set_bet` fails exactly when the raw input is non-numeric
(`none`), non-positive, or exceeds the available stack without the
already-placed-bet increase exemption (`bet_placed` and the increment
`b - bet` coverable by the remaining stack); and every failing call
leaves the table unchanged, so repeating the failed call changes
nothing. -/
theorem C5_set_bet_spec (t : Table) (v : Option ℚ) :
    ((set_bet t v).2 ≠ none ↔
      v = none ∨ ∃ b : ℚ, v = some b ∧
        (b ≤ 0 ∨ (t.player_stack < b ∧
          ¬(t.bet_placed = true ∧ b - t.bet ≤ t.player_stack))))
    ∧ ((set_bet t v).2 ≠ none →
        (set_bet t v).1 = t ∧ set_bet (set_bet t v).1 v = set_bet t v) := by
  cases v with
  | none =>
    have hv : set_bet t none = (t, some "Bet must be a number") := rfl
    rw [hv]
    exact ⟨iff_of_true (by simp) (Or.inl rfl), fun _ => ⟨rfl, hv⟩⟩
  | some b =>
    by_cases h1 : b ≤ 0
    · have hv : set_bet t (some b) = (t, some "Bet must be greater than 0") := by
        unfold set_bet
        dsimp only
        rw [if_pos h1]
      rw [hv]
      exact ⟨iff_of_true (by simp) (Or.inr ⟨b, rfl, Or.inl h1⟩), fun _ => ⟨rfl, hv⟩⟩
    · by_cases h2 : b > t.player_stack
      · by_cases h3 : t.bet_placed = true ∧ b - t.bet ≤ t.player_stack
        · have hv : set_bet t (some b) = ({ t with bet := b }, none) := by
            unfold set_bet
            dsimp only
            rw [if_neg h1, if_pos h2, if_pos h3]
          rw [hv]
          refine ⟨iff_of_false (by simp) ?_, fun h => absurd rfl h⟩
          rintro (h | ⟨b2, hb2, hcase⟩)
          · exact Option.noConfusion h
          · obtain rfl : b = b2 := Option.some.injEq .. ▸ hb2
            rcases hcase with h | ⟨-, hno⟩
            · exact h1 h
            · exact hno h3
        · have hv : set_bet t (some b) =
              (t, some "Bet must not be larger than remaining chips") := by
            unfold set_bet
            dsimp only
            rw [if_neg h1, if_pos h2, if_neg h3]
          rw [hv]
          exact ⟨iff_of_true (by simp) (Or.inr ⟨b, rfl, Or.inr ⟨h2, h3⟩⟩),
            fun _ => ⟨rfl, hv⟩⟩
      · have hv : set_bet t (some b) = ({ t with bet := b }, none) := by
          unfold set_bet
          dsimp only
          rw [if_neg h1, if_neg h2]
        rw [hv]
        refine ⟨iff_of_false (by simp) ?_, fun h => absurd rfl h⟩
        rintro (h | ⟨b2, hb2, hcase⟩)
        · exact Option.noConfusion h
        · obtain rfl : b = b2 := Option.some.injEq .. ▸ hb2
          rcases hcase with h | ⟨hlt, -⟩
          · exact h1 h
          · exact h2 hlt

/-- Witness for C5: at `exTable`, a zero bet is rejected and the state is
returned unchanged. -/
theorem C5_witness :
    (set_bet exTable (some 0)).2 ≠ none ∧ (set_bet exTable (some 0)).1 = exTable := by
  have h := C5_set_bet_spec exTable (some 0)
  have hf : (set_bet exTable (some 0)).2 ≠ none :=
    h.1.mpr (Or.inr ⟨0, rfl, Or.inl le_rfl⟩)
  exact ⟨hf, (h.2 hf).1⟩

/-! ### process_action helper lemmas -/

/-- `Table.__init__(player_stack, num_decks)` (src/run.py lines 20-27):
assigns only stack, shoe, reshuffle flag, the two card lists, bet (1) and
`bet_placed`.  None of `split_cards`, `split_bet`, `split_input_ended` is
ever assigned anywhere in the program; the absent split hand is
represented by the empty list (the two are indistinguishable to Python's
truthiness test used by `action_permitted`). -/
def Table.init (player_stack : ℚ) (sh : Shoe) : Table :=
  { player_stack := player_stack, shoe := sh, reshuffle := false,
    dealer_cards := [], player_cards := [], bet := 1, bet_placed := false,
    player_input_ended := false, split_cards := [] }

theorem process_action_hit (t : Table) (c : Nat) (rest : List Nat)
    (hs : t.shoe.cards = c :: rest) :
    process_action t "h" =
      ({ t with player_cards := t.player_cards ++ [c],
                shoe := { t.shoe with cards := rest } }, none) := by
  unfold process_action
  rw [if_pos rfl, hs]

theorem process_action_stand (t : Table) :
    process_action t "s" = ({ t with player_input_ended := true }, none) := by
  unfold process_action
  rw [if_neg (by decide), if_pos rfl]

theorem process_action_other (t : Table) (key : String)
    (h1 : key ≠ "h") (h2 : key ≠ "s")
    (h3 : ¬(key = "d" ∧ action_permitted t .double = true)) :
    process_action t key = (t, none) := by
  unfold process_action
  rw [if_neg h1, if_neg h2, if_neg h3]

theorem set_bet_frame (t : Table) (v : Option ℚ) :
    ((set_bet t v).1).player_stack = t.player_stack
    ∧ ((set_bet t v).1).shoe = t.shoe
    ∧ ((set_bet t v).1).player_cards = t.player_cards
    ∧ ((set_bet t v).1).split_cards = t.split_cards := by
  cases v with
  | none => exact ⟨rfl, rfl, rfl, rfl⟩
  | some b =>
    unfold set_bet
    dsimp only
    split_ifs <;> exact ⟨rfl, rfl, rfl, rfl⟩

theorem set_player_stack_frame (t : Table) (v : ℚ) :
    ((set_player_stack t v).1).bet = t.bet
    ∧ ((set_player_stack t v).1).shoe = t.shoe
    ∧ ((set_player_stack t v).1).player_cards = t.player_cards
    ∧ ((set_player_stack t v).1).split_cards = t.split_cards := by
  unfold set_player_stack
  split_ifs <;> exact ⟨rfl, rfl, rfl, rfl⟩

theorem process_action_split_cards (t : Table) (key : String) :
    ((process_action t key).1).split_cards = t.split_cards := by
  unfold process_action
  split_ifs with h1 h2 h3
  · cases hs : t.shoe.cards with
    | nil => rfl
    | cons c rest => rfl
  · rfl
  · rcases hb : set_bet t (some (t.bet + t.bet)) with ⟨t1, e1⟩
    have hb1 : t1.split_cards = t.split_cards := by
      have := (set_bet_frame t (some (t.bet + t.bet))).2.2.2
      rw [hb] at this
      exact this
    dsimp only
    rw [hb]
    cases e1 with
    | some e => exact hb1
    | none =>
      dsimp only
      rcases hp : set_player_stack t1 (t1.player_stack - t.bet) with ⟨t2, e2⟩
      have hb2 : t2.split_cards = t1.split_cards := by
        have := (set_player_stack_frame t1 (t1.player_stack - t.bet)).2.2.2
        rw [hp] at this
        exact this
      cases e2 with
      | some e => exact hb2.trans hb1
      | none =>
        dsimp only
        cases hs : t2.shoe.cards with
        | nil => exact hb2.trans hb1
        | cons c rest => exact hb2.trans hb1
  · rfl

/-! ### C9: split is a dead limb -/

/-- C9: calling `process_action` with any key other than 'h', 's', 'd' —
including '2', the documented split key — returns normally and leaves the
Table exactly unchanged; moreover no call to `process_action` ever
changes `split_cards`, and a freshly constructed Table carries no split
hand, so the split action is a silent no-op at the public interface. -/
theorem C9_split_is_noop (t : Table) (key : String)
    (h1 : key ≠ "h") (h2 : key ≠ "s") (h3 : key ≠ "d") :
    process_action t key = (t, none)
    ∧ (∀ (t0 : Table) (k : String),
        ((process_action t0 k).1).split_cards = t0.split_cards)
    ∧ (∀ (s : ℚ) (sh : Shoe), (Table.init s sh).split_cards = []) :=
  ⟨process_action_other t key h1 h2 (fun hc => h3 hc.1),
    fun t0 k => process_action_split_cards t0 k,
    fun _ _ => rfl⟩

/-- Witness for C9 at the concrete state `exTable` with the split key '2'. -/
theorem C9_witness :
    process_action exTable "2" = (exTable, none) :=
  (C9_split_is_noop exTable "2" (by decide) (by decide) (by decide)).1

/-! ### C4: no invalid-action signalling (corrected) -/

/-- The state produced by hitting at `bjTable`: the third card 7♣ has been
drawn into the blackjack hand. -/
def bjTableAfterHit : Table :=
  { bjTable with player_cards := [12, 10, 5], shoe := ⟨6, [], 100⟩ }

/-- C4 counterexample: at `bjTable` the player holds a blackjack, so hit
is not in the permitted set; the claim demands such an action be rejected
without mutation, yet `process_action 'h'` returns normally (no
invalid-action condition) and mutates the player's cards. -/
theorem C4_counterexample :
    action_permitted bjTable .hit = false
    ∧ process_action bjTable "h" = (bjTableAfterHit, none)
    ∧ bjTableAfterHit.player_cards ≠ bjTable.player_cards := by
  refine ⟨by decide, ?_, by decide⟩
  rw [process_action_hit bjTable 5 [] rfl]
  rfl

/-- C4 amended: `process_action` never signals an invalid-action
condition.  Keys 'h' and 's' are applied unconditionally even when not in
the permitted set; a 'd' without double permission and every unrecognized
key return normally with the Table left exactly as before the call. -/
theorem C4_process_action_amended (t : Table) (key : String) :
    (key ≠ "h" → key ≠ "s" →
      ¬(key = "d" ∧ action_permitted t .double = true) →
      process_action t key = (t, none))
    ∧ (∀ (c : Nat) (rest : List Nat), t.shoe.cards = c :: rest →
        process_action t "h" =
          ({ t with player_cards := t.player_cards ++ [c],
                    shoe := { t.shoe with cards := rest } }, none))
    ∧ process_action t "s" = ({ t with player_input_ended := true }, none) :=
  ⟨process_action_other t key, fun c rest hs => process_action_hit t c rest hs,
    process_action_stand t⟩

/-- Witness for C4's amended statement: an unrecognized key at `exTable`. -/
theorem C4_witness :
    process_action exTable "q" = (exTable, none) :=
  (C4_process_action_amended exTable "q").1 (by decide) (by decide)
    (fun hc => by exact absurd hc.1 (by decide))

/-! ### C6: double down -/

theorem action_permitted_double_elim (t : Table)
    (h : action_permitted t .double = true) :
    t.player_cards.length = 2 ∧ t.bet ≤ t.player_stack := by
  by_cases hbj : (evaluate_hand t.player_cards).blackjack
  · simp [action_permitted, hbj] at h
  · simpa [action_permitted, hbj] using h

theorem set_bet_double_ok (t : Table) (hp : t.bet_placed = true)
    (hpos : 0 < t.bet) (hble : t.bet ≤ t.player_stack) :
    set_bet t (some (t.bet + t.bet)) = ({ t with bet := t.bet + t.bet }, none) := by
  unfold set_bet
  dsimp only
  rw [if_neg (by linarith)]
  by_cases h2 : t.bet + t.bet > t.player_stack
  · rw [if_pos h2, if_pos ⟨hp, by linarith⟩]
  · rw [if_neg h2]

theorem set_player_stack_ok (t : Table) (v : ℚ) (h0 : 0 ≤ v)
    (h1 : v ≤ 999999) :
    set_player_stack t v = ({ t with player_stack := v }, none) := by
  unfold set_player_stack
  rw [if_neg (by push_neg; exact ⟨h0, h1⟩)]

/-- C6: whenever double is permitted and applied — from a state with the
bet placed, a positive bet, and the stack within its legal range, and a
non-empty shoe — the bet becomes exactly twice its previous value, exactly
the original bet (the increment only) is deducted from the stack, exactly
one card is drawn into the player's hand, and player input for the hand
ends. -/
theorem C6_double_down_spec (t : Table) (c : Nat) (rest : List Nat)
    (hperm : action_permitted t .double = true)
    (hplaced : t.bet_placed = true)
    (hpos : 0 < t.bet)
    (hcap : t.player_stack ≤ 999999)
    (hshoe : t.shoe.cards = c :: rest) :
    process_action t "d" =
      ({ t with bet := t.bet * 2,
                player_stack := t.player_stack - t.bet,
                player_cards := t.player_cards ++ [c],
                shoe := { t.shoe with cards := rest },
                player_input_ended := true }, none) := by
  have hble : t.bet ≤ t.player_stack := (action_permitted_double_elim t hperm).2
  have h2 : t.bet * 2 = t.bet + t.bet := by ring
  rw [h2]
  unfold process_action
  rw [if_neg (by decide), if_neg (by decide), if_pos ⟨rfl, hperm⟩]
  dsimp only
  rw [set_bet_double_ok t hplaced hpos hble]
  dsimp only
  rw [set_player_stack_ok _ _ (show (0:ℚ) ≤ t.player_stack - t.bet by linarith)
    (show t.player_stack - t.bet ≤ (999999:ℚ) by linarith)]
  dsimp only
  rw [hshoe]

/-- Witness for C6: the concrete accounting of the spec example — after a
placed bet of 10 from initial stack 100 (stack 90), doubling yields bet
20 and stack 80, with one card drawn and input ended. -/
theorem C6_witness :
    process_action exTable "d" =
      ({ exTable with bet := 20, player_stack := 80, player_cards := [0, 1, 5],
                      shoe := ⟨6, [6, 7], 100⟩, player_input_ended := true },
        none) := by
  rw [C6_double_down_spec exTable 5 [6, 7] (by decide) rfl
    (by norm_num [exTable]) (by norm_num [exTable]) rfl]
  norm_num [exTable]

/-! ### C7: dealer reveal -/

theorem drawToSeventeen_stop (d s : List Nat)
    (h : 17 ≤ (evaluate_hand d).value) :
    drawToSeventeen d s = ((d, s), none) := by
  unfold drawToSeventeen
  rw [if_neg (by omega)]

theorem drawToSeventeen_ge (s : List Nat) : ∀ d d2 s2 : List Nat,
    drawToSeventeen d s = ((d2, s2), none) →
    17 ≤ (evaluate_hand d2).value := by
  induction s with
  | nil =>
    intro d d2 s2 h
    unfold drawToSeventeen at h
    split_ifs at h with hv
    · exact absurd (congrArg Prod.snd h) (by simp)
    · obtain ⟨h1, -⟩ := Prod.mk.injEq .. ▸ h
      obtain ⟨rfl, -⟩ := Prod.mk.injEq .. ▸ h1
      omega
  | cons c rest ih =>
    intro d d2 s2 h
    unfold drawToSeventeen at h
    split_ifs at h with hv
    · exact ih (d ++ [c]) d2 s2 h
    · obtain ⟨h1, -⟩ := Prod.mk.injEq .. ▸ h
      obtain ⟨rfl, -⟩ := Prod.mk.injEq .. ▸ h1
      omega

/-- C7: starting from a dealer hand of exactly one card and a non-empty
shoe, `reveal_dealer_cards` draws exactly one card; if the dealer or the
player then has blackjack no further card is drawn; otherwise the dealer
draws until the evaluated value is at least 17 (whenever the call returns
normally the final dealer value is ≥ 17), and the draw loop never draws
another card once the value is 17 or more — including on soft 17. -/
theorem C7_reveal_dealer_spec (t : Table) (c0 c : Nat) (rest : List Nat)
    (hd : t.dealer_cards = [c0]) (hs : t.shoe.cards = c :: rest) :
    (((evaluate_hand [c0, c]).blackjack = true ∨
        (evaluate_hand t.player_cards).blackjack = true) →
      reveal_dealer_cards t =
        ({ t with dealer_cards := [c0, c],
                  shoe := { t.shoe with cards := rest } }, none))
    ∧ (¬((evaluate_hand [c0, c]).blackjack = true ∨
          (evaluate_hand t.player_cards).blackjack = true) →
        (∀ t2 : Table, reveal_dealer_cards t = (t2, none) →
          17 ≤ (evaluate_hand t2.dealer_cards).value)
        ∧ (17 ≤ (evaluate_hand [c0, c]).value →
            reveal_dealer_cards t =
              ({ t with dealer_cards := [c0, c],
                        shoe := { t.shoe with cards := rest } }, none)))
    ∧ (∀ d s : List Nat, 17 ≤ (evaluate_hand d).value →
        drawToSeventeen d s = ((d, s), none)) := by
  refine ⟨?_, ?_, fun d s h => drawToSeventeen_stop d s h⟩
  · intro hbj
    unfold reveal_dealer_cards
    rw [hs]
    dsimp only
    rw [hd]
    simp only [List.singleton_append]
    rw [if_pos hbj]
  · intro hbj
    constructor
    · intro t2 h2
      unfold reveal_dealer_cards at h2
      rw [hs] at h2
      dsimp only at h2
      rw [hd] at h2
      simp only [List.singleton_append] at h2
      rw [if_neg hbj] at h2
      rcases hdraw : drawToSeventeen [c0, c] rest with ⟨⟨d2, s2⟩, e⟩
      rw [hdraw] at h2
      dsimp only at h2
      obtain ⟨h1, he⟩ := Prod.mk.injEq .. ▸ h2
      have : 17 ≤ (evaluate_hand d2).value :=
        drawToSeventeen_ge rest [c0, c] d2 s2 (by rw [hdraw, he])
      rw [← h1]
      exact this
    · intro h17
      unfold reveal_dealer_cards
      rw [hs]
      dsimp only
      rw [hd]
      simp only [List.singleton_append]
      rw [if_neg hbj, drawToSeventeen_stop [c0, c] rest h17]

/-- A state for exercising the dealer reveal: dealer shows 7♣, the shoe
continues J♣ Q♣ K♣. -/
def revealTable : Table :=
  { player_stack := 90, shoe := ⟨6, [9, 10, 11], 100⟩, reshuffle := false,
    dealer_cards := [5], player_cards := [0, 1], bet := 10,
    bet_placed := true, player_input_ended := true, split_cards := [] }

/-- Witness for C7: from dealer 7♣ the dealer draws exactly one card
(J♣, reaching 17) and then stands. -/
theorem C7_witness :
    reveal_dealer_cards revealTable =
      ({ revealTable with dealer_cards := [5, 9],
                          shoe := ⟨6, [10, 11], 100⟩ }, none) := by
  have h := ((C7_reveal_dealer_spec revealTable 5 9 [10, 11] rfl rfl).2.1
    (by decide)).2 (by decide)
  exact h

/-! ### C2: settlement -/

/-- The payout schedule exactly as the claim words it: 2.5× bet for a
player blackjack against no dealer blackjack; else 2× bet when the player
total is ≤ 21 and beats the dealer or the dealer busts; else 1× bet on a
push, the push being "equal non-blackjack totals, or both blackjack";
else 0. -/
def claimedPayout (pe de : HandEval) (bet : ℚ) : ℚ :=
  if pe.blackjack = true ∧ de.blackjack = false then bet * (5 / 2)
  else if pe.value ≤ 21 ∧ (de.value < pe.value ∨ 21 < de.value) then bet * 2
  else if (pe.blackjack = false ∧ de.blackjack = false ∧ pe.value = de.value) ∨
      (pe.blackjack = true ∧ de.blackjack = true) then bet
  else 0

/-- The payout schedule as the code actually implements it: identical to
`claimedPayout` except that the push case additionally requires the
player's total to be ≤ 21 (the code's push test sits inside the
`player_hand_value <= 21` block). -/
def amendedPayout (pe de : HandEval) (bet : ℚ) : ℚ :=
  if pe.blackjack = true ∧ de.blackjack = false then bet * (5 / 2)
  else if pe.value ≤ 21 ∧ (de.value < pe.value ∨ 21 < de.value) then bet * 2
  else if pe.value ≤ 21 ∧
      ((pe.blackjack = false ∧ de.blackjack = false ∧ pe.value = de.value) ∨
        (pe.blackjack = true ∧ de.blackjack = true)) then bet
  else 0

/-- Both player and dealer hold 10,10,2 — equal busted totals of 22. -/
def T22 : Table :=
  { player_stack := 100, shoe := ⟨6, [], 100⟩, reshuffle := false,
    dealer_cards := [34, 47, 13], player_cards := [8, 21, 0],
    bet := 10, bet_placed := true, player_input_ended := true,
    split_cards := [] }

/-- C2 counterexample: with equal busted totals (22 vs 22, neither a
blackjack) the code pays nothing and leaves the table untouched, while
the claim's case analysis — whose push is "equal non-blackjack totals"
with no bust guard — demands a nonzero credit of 1 × bet. -/
theorem C2_counterexample :
    process_result T22 = (T22, none)
    ∧ claimedPayout (evaluate_hand T22.player_cards)
        (evaluate_hand T22.dealer_cards) T22.bet ≠ 0 := by
  constructor
  · rfl
  · have hp : evaluate_hand T22.player_cards = ⟨22, false⟩ := by decide
    have hd : evaluate_hand T22.dealer_cards = ⟨22, false⟩ := by decide
    rw [hp, hd]
    norm_num [claimedPayout, T22]

theorem push_cond_iff (pe de : HandEval)
    (h1 : ¬(pe.blackjack = true ∧ de.blackjack = false)) :
    ((de.blackjack = false ∧ pe.value = de.value) ∨
        (pe.blackjack = true ∧ de.blackjack = true)) ↔
      ((pe.blackjack = false ∧ de.blackjack = false ∧ pe.value = de.value) ∨
        (pe.blackjack = true ∧ de.blackjack = true)) := by
  cases hpb : pe.blackjack <;> cases hdb : de.blackjack <;>
    simp [hpb, hdb] at h1 ⊢

theorem amendedPayout_bj (pe de : HandEval) (bet : ℚ)
    (h : pe.blackjack = true ∧ de.blackjack = false) :
    amendedPayout pe de bet = bet * (5 / 2) := by
  unfold amendedPayout
  rw [if_pos h]

theorem amendedPayout_win (pe de : HandEval) (bet : ℚ)
    (h1 : ¬(pe.blackjack = true ∧ de.blackjack = false))
    (h2 : pe.value ≤ 21 ∧ (de.value < pe.value ∨ 21 < de.value)) :
    amendedPayout pe de bet = bet * 2 := by
  unfold amendedPayout
  rw [if_neg h1, if_pos h2]

theorem amendedPayout_push (pe de : HandEval) (bet : ℚ)
    (h1 : ¬(pe.blackjack = true ∧ de.blackjack = false))
    (h2 : pe.value ≤ 21)
    (h3 : ¬(de.value < pe.value ∨ 21 < de.value))
    (h4 : (de.blackjack = false ∧ pe.value = de.value) ∨
        (pe.blackjack = true ∧ de.blackjack = true)) :
    amendedPayout pe de bet = bet := by
  unfold amendedPayout
  rw [if_neg h1, if_neg (fun hc => h3 hc.2),
    if_pos ⟨h2, (push_cond_iff pe de h1).mp h4⟩]

theorem amendedPayout_zero (pe de : HandEval) (bet : ℚ)
    (h1 : ¬(pe.blackjack = true ∧ de.blackjack = false))
    (h2 : ¬(pe.value ≤ 21 ∧ (de.value < pe.value ∨ 21 < de.value)))
    (h3 : ¬(pe.value ≤ 21 ∧
      ((de.blackjack = false ∧ pe.value = de.value) ∨
        (pe.blackjack = true ∧ de.blackjack = true)))) :
    amendedPayout pe de bet = 0 := by
  unfold amendedPayout
  rw [if_neg h1, if_neg h2,
    if_neg (fun hc => h3 ⟨hc.1, ((push_cond_iff pe de h1).mpr hc.2)⟩)]

/-- C2 amended: for every table with a positive bet, settlement credits
the stack (through the guarded stack setter) with exactly the payout of
the claim's schedule amended so that the push case additionally requires
the player's total to be ≤ 21; when the payout is zero no setter call is
made and the table is returned unchanged. -/
theorem C2_settlement_amended (t : Table) (hbet : 0 < t.bet) :
    process_result t =
      (if amendedPayout (evaluate_hand t.player_cards)
          (evaluate_hand t.dealer_cards) t.bet = 0
       then (t, none)
       else set_player_stack t (t.player_stack +
          amendedPayout (evaluate_hand t.player_cards)
            (evaluate_hand t.dealer_cards) t.bet)) := by
  unfold process_result
  dsimp only
  by_cases h1 : (evaluate_hand t.player_cards).blackjack = true ∧
      (evaluate_hand t.dealer_cards).blackjack = false
  · rw [if_pos h1, amendedPayout_bj _ _ _ h1,
      if_neg (mul_ne_zero (ne_of_gt hbet) (by norm_num))]
  · rw [if_neg h1]
    by_cases h2 : (evaluate_hand t.player_cards).value ≤ 21
    · rw [if_pos h2]
      by_cases h3 : (evaluate_hand t.dealer_cards).value <
          (evaluate_hand t.player_cards).value ∨
          21 < (evaluate_hand t.dealer_cards).value
      · rw [if_pos h3, amendedPayout_win _ _ _ h1 ⟨h2, h3⟩,
          if_neg (mul_ne_zero (ne_of_gt hbet) two_ne_zero)]
      · rw [if_neg h3]
        by_cases h4 : ((evaluate_hand t.dealer_cards).blackjack = false ∧
            (evaluate_hand t.player_cards).value =
              (evaluate_hand t.dealer_cards).value) ∨
            ((evaluate_hand t.player_cards).blackjack = true ∧
              (evaluate_hand t.dealer_cards).blackjack = true)
        · rw [if_pos h4, amendedPayout_push _ _ _ h1 h2 h3 h4,
            if_neg (ne_of_gt hbet)]
        · rw [if_neg h4, amendedPayout_zero _ _ _ h1
            (fun hc => h3 hc.2) (fun hc => h4 hc.2), if_pos rfl]
    · rw [if_neg h2, amendedPayout_zero _ _ _ h1
        (fun hc => h2 hc.1) (fun hc => h2 hc.1), if_pos rfl]

/-- Witness for C2's amended statement: at `exTable` (player 5 vs dealer
4, bet 10) the player wins and the stack is credited with 2 × bet. -/
theorem C2_witness :
    process_result exTable = ({ exTable with player_stack := 110 }, none) := by
  rw [C2_settlement_amended exTable (by norm_num [exTable])]
  have hp : evaluate_hand exTable.player_cards = ⟨5, false⟩ := by decide
  have hd : evaluate_hand exTable.dealer_cards = ⟨4, false⟩ := by decide
  rw [hp, hd]
  norm_num [amendedPayout, set_player_stack, exTable]

/-! ### C10: the stack bound invariant -/

theorem set_player_stack_pair (t : Table) (v : ℚ) (t2 : Table)
    (h : set_player_stack t v = (t2, none)) :
    t2 = { t with player_stack := v } ∧ 0 ≤ v ∧ v ≤ 999999 := by
  unfold set_player_stack at h
  split_ifs at h with hc
  · exact absurd (congrArg Prod.snd h) (by simp)
  · push_neg at hc
    obtain ⟨h1, -⟩ := Prod.mk.injEq .. ▸ h
    exact ⟨h1.symm, hc.1, hc.2⟩

theorem process_result_stack (t t2 : Table)
    (h0 : 0 ≤ t.player_stack) (h1 : t.player_stack ≤ 999999)
    (h : process_result t = (t2, none)) :
    0 ≤ t2.player_stack ∧ t2.player_stack ≤ 999999 := by
  unfold process_result at h
  dsimp only at h
  split_ifs at h with c1 c2 c3 c4
  · obtain ⟨rfl, hv⟩ := set_player_stack_pair _ _ _ h
    exact hv
  · obtain ⟨rfl, hv⟩ := set_player_stack_pair _ _ _ h
    exact hv
  · obtain ⟨rfl, hv⟩ := set_player_stack_pair _ _ _ h
    exact hv
  · obtain ⟨rfl, -⟩ := Prod.mk.injEq .. ▸ h
    exact ⟨h0, h1⟩
  · obtain ⟨rfl, -⟩ := Prod.mk.injEq .. ▸ h
    exact ⟨h0, h1⟩

theorem process_action_stack (t : Table) (key : String) (t2 : Table)
    (h0 : 0 ≤ t.player_stack) (h1 : t.player_stack ≤ 999999)
    (h : process_action t key = (t2, none)) :
    0 ≤ t2.player_stack ∧ t2.player_stack ≤ 999999 := by
  unfold process_action at h
  split_ifs at h with k1 k2 k3
  · rcases hsc : t.shoe.cards with - | ⟨c, rest⟩ <;> rw [hsc] at h
    · exact absurd (congrArg Prod.snd h) (by simp)
    · obtain ⟨ht, -⟩ := Prod.mk.injEq .. ▸ h
      rw [← ht]
      exact ⟨h0, h1⟩
  · obtain ⟨ht, -⟩ := Prod.mk.injEq .. ▸ h
    rw [← ht]
    exact ⟨h0, h1⟩
  · dsimp only at h
    rcases hb : set_bet t (some (t.bet + t.bet)) with ⟨t1, e1⟩
    rw [hb] at h
    cases e1 with
    | some e => exact absurd (congrArg Prod.snd h) (by simp)
    | none =>
      dsimp only at h
      rcases hp : set_player_stack t1 (t1.player_stack - t.bet) with ⟨t3, e2⟩
      rw [hp] at h
      cases e2 with
      | some e => exact absurd (congrArg Prod.snd h) (by simp)
      | none =>
        dsimp only at h
        obtain ⟨rfl, hv⟩ := set_player_stack_pair _ _ _ hp
        rcases hsc : ({ t1 with
            player_stack := t1.player_stack - t.bet } : Table).shoe.cards with
          - | ⟨c, rest⟩ <;> rw [hsc] at h
        · exact absurd (congrArg Prod.snd h) (by simp)
        · obtain ⟨ht, -⟩ := Prod.mk.injEq .. ▸ h
          rw [← ht]
          exact hv
  · obtain ⟨ht, -⟩ := Prod.mk.injEq .. ▸ h
    rw [← ht]
    exact ⟨h0, h1⟩

/-- C10: the stack setter succeeds exactly within the legal range, so any
successful assignment leaves `0 ≤ player_stack ≤ 999999` and a failing
assignment leaves the stack untouched; consequently a settlement that
completes normally from an in-range state ends in-range — a payout that
would push the stack above 999999 raises instead — and the governing
loop's win test `player_stack > 999999` can never observe a true value;
player actions preserve the invariant as well. -/
theorem C10_stack_bound_spec :
    (∀ (t : Table) (v : ℚ), (set_player_stack t v).2 = none →
      0 ≤ (set_player_stack t v).1.player_stack ∧
      (set_player_stack t v).1.player_stack ≤ 999999)
    ∧ (∀ (t : Table) (v : ℚ), (set_player_stack t v).2 ≠ none →
        (set_player_stack t v).1 = t)
    ∧ (∀ t t2 : Table, 0 ≤ t.player_stack → t.player_stack ≤ 999999 →
        process_result t = (t2, none) →
        0 ≤ t2.player_stack ∧ t2.player_stack ≤ 999999 ∧
        ¬(999999 < t2.player_stack))
    ∧ (∀ (t : Table) (key : String) (t2 : Table),
        0 ≤ t.player_stack → t.player_stack ≤ 999999 →
        process_action t key = (t2, none) →
        0 ≤ t2.player_stack ∧ t2.player_stack ≤ 999999) := by
  refine ⟨?_, ?_, ?_, fun t key t2 h0 h1 h => process_action_stack t key t2 h0 h1 h⟩
  · intro t v h
    rcases hv : set_player_stack t v with ⟨t2, e⟩
    rw [hv] at h
    cases e with
    | some e => exact absurd h (by simp)
    | none =>
      obtain ⟨rfl, hr⟩ := set_player_stack_pair t v t2 hv
      exact hr
  · intro t v h
    unfold set_player_stack at *
    split_ifs at h ⊢ with hc
    · rfl
    · exact absurd rfl h
  · intro t t2 h0 h1 h
    obtain ⟨hA, hB⟩ := process_result_stack t t2 h0 h1 h
    exact ⟨hA, hB, not_lt.mpr hB⟩

/-- Witness for C10: settling the all-bust tie at `T22` completes
normally with the stack in range, so the win test is false there. -/
theorem C10_witness :
    0 ≤ T22.player_stack ∧ T22.player_stack ≤ 999999
    ∧ ¬(999999 < T22.player_stack) := by
  have h := C10_stack_bound_spec.2.2.1 T22 T22 (by norm_num [T22])
    (by norm_num [T22]) rfl
  exact ⟨h.1, h.2.1, h.2.2⟩

end Blackjack
